import Mathlib

/-!
Verification development for the durable task queue, spend guard,
confirmation broker, risk evaluation and scheduler of this repository.
The definitions below are shallow embeddings of the TypeScript sources:
the SQLite-backed task store (`taskStore.ts`), its schema migration
(`migrations.ts`), the wallet guard (`wallet-guard.ts`), the confirmation
broker (`tx-confirmation.ts`), the risk engine (`risk.ts`) and the
scheduler (`scheduler.ts`).  Database tables are lists of rows; the SQL
statements of the source become the corresponding list operations, run
atomically (each exported function is one transaction).
-/

/-! ## Task queue data model (tasks table, task_locks table) -/

inductive TaskState where
  | queued
  | running
  | succeeded
  | failedRetryable
  | failedFinal
  | canceled
deriving DecidableEq, Repr

/-- One row of the `tasks` table, per `TaskRecord` in `tasks/types.ts`
(with the `task_key` idempotency column used by `enqueueTask`). -/
structure TaskRecord where
  id : String
  taskType : String
  payloadJson : String
  state : TaskState
  priority : Int
  attempts : Nat
  maxAttempts : Nat
  runAfterMs : Nat
  createdAtMs : Nat
  updatedAtMs : Nat
  lastError : Option String
  taskKey : Option String
deriving DecidableEq, Repr

/-- One row of the `task_locks` table. -/
structure TaskLock where
  taskId : String
  lockedBy : String
  lockUntilMs : Nat
deriving DecidableEq, Repr

/-- The durable store: the two tables touched by the task queue. -/
structure QueueState where
  tasks : List TaskRecord
  locks : List TaskLock
deriving DecidableEq, Repr

structure ClaimedTask where
  task : TaskRecord
  lockUntilMs : Nat
deriving DecidableEq, Repr

/-- Result record of `failTask`: `{ nextRunAfterMs?, final }`. -/
structure FailResult where
  nextRunAfterMs : Option Nat
  final : Bool
deriving DecidableEq, Repr

/-- `computeBackoffMs` from `taskStore.ts`:
`min(5000 * 3 ^ max(0, n - 1), 300000)` (Nat subtraction already
truncates at zero, matching `Math.max(0, n - 1)`). -/
def computeBackoffMs (attemptsAfterFailure : Nat) : Nat :=
  min (5000 * 3 ^ (attemptsAfterFailure - 1)) 300000

/-- Strict comparison realizing the SQL
`ORDER BY priority DESC, run_after_ms ASC, created_at_ms ASC`:
`a` sorts strictly before `b`. -/
def claimOrderLt (a b : TaskRecord) : Bool :=
  b.priority < a.priority ||
    (a.priority = b.priority &&
      (a.runAfterMs < b.runAfterMs ||
        (a.runAfterMs = b.runAfterMs && a.createdAtMs < b.createdAtMs)))

/-- `ORDER BY ... LIMIT 1` over a candidate list: the first row that no
other row strictly precedes (earlier rows win ties). -/
def pickBest : List TaskRecord → Option TaskRecord
  | [] => none
  | t :: ts =>
    match pickBest ts with
    | none => some t
    | some b => if claimOrderLt b t then some b else some t

/-- The `WHERE` clause of the claim query, evaluated against the lock
table after expired locks were deleted. -/
def runnable (locks : List TaskLock) (nowMs : Nat) (t : TaskRecord) : Bool :=
  t.state = TaskState.queued && t.runAfterMs ≤ nowMs &&
    !(locks.any (fun l => l.taskId = t.id))

/-- The row update applied by the claim transaction
(`SET state = RUNNING, attempts = attempts + 1, updated_at_ms = ?,
last_error = NULL`). -/
def markClaimed (nowMs : Nat) (t : TaskRecord) : TaskRecord :=
  { t with
    state := TaskState.running
    attempts := t.attempts + 1
    updatedAtMs := nowMs
    lastError := none }

/-- `claimNextTask` from `taskStore.ts`.  The whole body runs under
`BEGIN IMMEDIATE`, so it is modelled as one atomic step: delete expired
locks, pick the best runnable task, insert a fresh lock, mark the task
RUNNING with `attempts + 1`, and return the updated row. -/
def claimNextTask (workerId : String) (lockTtlMs nowMs : Nat)
    (s : QueueState) : Option ClaimedTask × QueueState :=
  let locks1 := s.locks.filter (fun l => !(l.lockUntilMs ≤ nowMs))
  match pickBest (s.tasks.filter (runnable locks1 nowMs)) with
  | none => (none, { s with locks := locks1 })
  | some picked =>
    let lockUntil := nowMs + lockTtlMs
    let locks2 := locks1 ++ [⟨picked.id, workerId, lockUntil⟩]
    let tasks2 := s.tasks.map
      (fun u => if u.id = picked.id then markClaimed nowMs u else u)
    (some ⟨markClaimed nowMs picked, lockUntil⟩,
      { tasks := tasks2, locks := locks2 })

/-- `completeTask` from `taskStore.ts`: set the row SUCCEEDED by id
(unconditionally), then delete only this worker's lock. -/
def completeTask (taskId workerId : String) (nowMs : Nat)
    (s : QueueState) : QueueState :=
  { tasks := s.tasks.map
      (fun u => if u.id = taskId then
        { u with state := TaskState.succeeded, updatedAtMs := nowMs } else u)
    locks := s.locks.filter
      (fun l => !(l.taskId = taskId && l.lockedBy = workerId)) }

/-- `failTask` from `taskStore.ts`.  Reads the row; a missing row only
releases the lock and reports final.  Otherwise the failure state is
FAILED_FINAL when not retryable or `attempts >= max_attempts`, else
FAILED_RETRYABLE with `run_after = now + backoff(attempts)`; a
retryable failure is immediately re-queued in the same transaction. -/
def failTask (taskId workerId error : String) (retryable : Bool)
    (nowMs : Nat) (s : QueueState) : FailResult × QueueState :=
  let locks1 := s.locks.filter
    (fun l => !(l.taskId = taskId && l.lockedBy = workerId))
  match s.tasks.find? (fun t => t.id = taskId) with
  | none => (⟨none, true⟩, { s with locks := locks1 })
  | some row =>
    let isFinal := !retryable || row.maxAttempts ≤ row.attempts
    let nextRunAfterMs : Option Nat :=
      if isFinal then none else some (nowMs + computeBackoffMs row.attempts)
    let state1 := if isFinal then TaskState.failedFinal
      else TaskState.failedRetryable
    let tasks1 := s.tasks.map
      (fun u => if u.id = taskId then
        { u with
          state := state1
          runAfterMs := nextRunAfterMs.getD u.runAfterMs
          updatedAtMs := nowMs
          lastError := some error } else u)
    let tasks2 := if state1 = TaskState.failedRetryable then
        tasks1.map (fun u => if u.id = taskId then
          { u with state := TaskState.queued, updatedAtMs := nowMs } else u)
      else tasks1
    (⟨nextRunAfterMs, isFinal⟩, { tasks := tasks2, locks := locks1 })

/-! ## Schema of `migrateTasksDb` versus the columns `enqueueTask` inserts -/

/-- Column list of `CREATE TABLE tasks` in `tasks/migrations.ts`. -/
def tasksTableColumns : List String :=
  ["id", "type", "payload_json", "state", "priority", "attempts",
   "max_attempts", "run_after_ms", "created_at_ms", "updated_at_ms",
   "last_error"]

/-- Column list of the `INSERT OR IGNORE INTO tasks (...)` statement in
`enqueueTask` (`taskStore.ts`). -/
def enqueueInsertColumns : List String :=
  ["id", "type", "payload_json", "state", "priority", "attempts",
   "max_attempts", "run_after_ms", "created_at_ms", "updated_at_ms",
   "last_error", "task_key"]

/-! ## Wallet guard (`wallet-guard.ts`) -/

/-- A transaction intent.  Optional fields model both `undefined` and,
through `jsTruthyStr`, the falsiness of the empty string in the source
(`if (tx.from) ...`, `toLowerAddr`). -/
structure TxIntent where
  chainId : Nat
  from_ : Option String
  to_ : Option String
  valueWei : Option Int
  dataHex : Option String
deriving DecidableEq, Repr

structure SimulationResult where
  ok : Bool
  reason : Option String
deriving DecidableEq, Repr

structure UsdcPolicy where
  tokenAddress : String
  allowApprovals : Bool
  allowlistedSpenders : Option (List String)
  maxTxUnits : Int
  maxDailyUnits : Int
  maxApprovalUnits : Int
deriving DecidableEq, Repr

structure WalletGuardConfig where
  autonomyEnabled : Bool
  allowedChainIds : List Nat
  maxTxValueWei : Int
  maxDailyValueWei : Int
  allowlistedTo : Option (List String)
  blocklistedTo : Option (List String)
  blockTokenApprovals : Bool
  usdc : Option UsdcPolicy
  requireSimulation : Bool
  ledgerFilePath : String
deriving DecidableEq, Repr

/-- The daily spend ledger file: `{ dayKey, spentWei, tokenSpent }`,
with amounts as integers (the file serializes them as decimal strings). -/
structure Ledger where
  dayKey : String
  spentWei : Int
  tokenSpent : List (String × Int)
deriving DecidableEq, Repr

/-- `readLedger`: any read failure (missing or malformed file) falls
back to a fresh zeroed record for today. -/
def readLedger (file : Option Ledger) (today : String) : Ledger :=
  file.getD ⟨today, 0, []⟩

/-- A JS string option where the empty string counts as absent
(truthiness of `tx.from`, `tx.to` and `toLowerAddr`). -/
def jsTruthyStr (o : Option String) : Option String :=
  match o with
  | some s => if s = "" then none else some s
  | none => none

/-- The regex `^0x[0-9a-fA-F]{40}$` of `assertHexAddress`. -/
def isHexAddress (s : String) : Bool :=
  s.length = 42 && s.startsWith "0x" &&
    (s.toList.drop 2).all
      (fun c => c.isDigit || ('a' ≤ c && c ≤ 'f') || ('A' ≤ c && c ≤ 'F'))

def ERC20_APPROVE_SELECTOR : String := "0x095ea7b3"
def ERC20_TRANSFER_SELECTOR : String := "0xa9059cbb"
def ERC20_TRANSFERFROM_SELECTOR : String := "0x23b872dd"

def selectorOf (dataHex : Option String) : Option String :=
  match dataHex with
  | none => none
  | some d => if d.length < 10 then none else some ((d.take 10).toLower)

def looksLikeErc20Call (dataHex : Option String) : Bool :=
  match selectorOf dataHex with
  | none => false
  | some s =>
    s = ERC20_APPROVE_SELECTOR || s = ERC20_TRANSFER_SELECTOR ||
      s = ERC20_TRANSFERFROM_SELECTOR

/-- The char class `[0-9a-f]` (the calldata body is lowercased before
this test). -/
def isLowerHexDigit (c : Char) : Bool :=
  c.isDigit || ('a' ≤ c && c ≤ 'f')

def hexDigitVal (c : Char) : Nat :=
  if c.isDigit then c.toNat - 48 else c.toNat - 87

def hexToNat (cs : List Char) : Nat :=
  cs.foldl (fun acc c => acc * 16 + hexDigitVal c) 0

/-- `readWord`: 64 hex chars at word index `i`, error when the calldata
is too short. -/
def readWord (args : List Char) (i : Nat) : Except String (List Char) :=
  if args.length < (i + 1) * 64 then Except.error "calldata too short"
  else Except.ok ((args.drop (i * 64)).take 64)

/-- `wordToAddress`: the last 40 hex chars, 0x-prefixed. -/
def wordToAddress (w : List Char) : String :=
  "0x" ++ String.mk (w.drop 24)

def wordToUint (w : List Char) : Int :=
  (hexToNat w : Nat)

inductive DecodedErc20 where
  | approve (spender : String) (amount : Int)
  | transfer (to_ : String) (amount : Int)
  | transferFrom (from_ to_ : String) (amount : Int)
deriving DecidableEq, Repr

/-- `decodeErc20`: strip the `0x` + selector prefix, lowercase the
argument hex, validate it, and decode the three known selectors.
Exceptions of the source become `Except.error`. -/
def decodeErc20 (dataHex : String) : Except String (Option DecodedErc20) :=
  match selectorOf (some dataHex) with
  | none => Except.ok none
  | some sig =>
    let args := ((dataHex.drop 10).toLower).toList
    if !(args.all isLowerHexDigit) || args.length % 2 ≠ 0 then
      Except.error "invalid calldata hex"
    else if sig = ERC20_APPROVE_SELECTOR then do
      let w0 ← readWord args 0
      let w1 ← readWord args 1
      Except.ok (some (DecodedErc20.approve (wordToAddress w0) (wordToUint w1)))
    else if sig = ERC20_TRANSFER_SELECTOR then do
      let w0 ← readWord args 0
      let w1 ← readWord args 1
      Except.ok (some (DecodedErc20.transfer (wordToAddress w0) (wordToUint w1)))
    else if sig = ERC20_TRANSFERFROM_SELECTOR then do
      let w0 ← readWord args 0
      let w1 ← readWord args 1
      let w2 ← readWord args 2
      Except.ok (some (DecodedErc20.transferFrom (wordToAddress w0)
        (wordToAddress w1) (wordToUint w2)))
    else Except.ok none

def isErc20Transferish : Option DecodedErc20 → Bool
  | some (DecodedErc20.transfer _ _) => true
  | some (DecodedErc20.transferFrom _ _ _) => true
  | _ => false

/-- Assoc-map read `tokenSpent[addr] ?? "0"`. -/
def tokenSpentGet (l : List (String × Int)) (k : String) : Int :=
  ((l.find? (fun p => p.1 = k)).map Prod.snd).getD 0

/-- Assoc-map write `tokenSpent[addr] = next`. -/
def tokenSpentSet (l : List (String × Int)) (k : String) (v : Int) :
    List (String × Int) :=
  if l.any (fun p => p.1 = k) then
    l.map (fun p => if p.1 = k then (k, v) else p)
  else l ++ [(k, v)]

/-- The daily-cap tail of `walletPreflightCheck` (steps 8 and 9 of the
guard): read the ledger, roll counters over to zero when the stored day
differs from today, enforce the native and USDC daily caps, and commit
the updated record.  The second component collects the `writeLedger`
calls performed. -/
def dailyCapAndCommit (cfg : WalletGuardConfig) (valueWei : Int)
    (decoded : Option DecodedErc20) (ledgerFile : Option Ledger)
    (today : String) : Except String Unit × List Ledger :=
  let ledger := readLedger ledgerFile today
  let spentWei := if ledger.dayKey = today then ledger.spentWei else 0
  let tokenSpent := if ledger.dayKey = today then ledger.tokenSpent else []
  let nextSpentWei := spentWei + valueWei
  if cfg.maxDailyValueWei < nextSpentWei then
    (Except.error ("Daily spend cap exceeded: " ++ toString nextSpentWei ++
      " > " ++ toString cfg.maxDailyValueWei), [])
  else
    match cfg.usdc with
    | some usdc =>
      if isErc20Transferish decoded then
        let amount := match decoded with
          | some (DecodedErc20.transfer _ a) => a
          | some (DecodedErc20.transferFrom _ _ a) => a
          | _ => 0
        let next := tokenSpentGet tokenSpent usdc.tokenAddress + amount
        if usdc.maxDailyUnits < next then
          (Except.error ("USDC daily cap exceeded: " ++ toString next ++
            " > " ++ toString usdc.maxDailyUnits), [])
        else
          (Except.ok (),
            [⟨today, nextSpentWei, tokenSpentSet tokenSpent usdc.tokenAddress next⟩])
      else (Except.ok (), [⟨today, nextSpentWei, tokenSpent⟩])
    | none => (Except.ok (), [⟨today, nextSpentWei, tokenSpent⟩])

/-- The ERC20 policy checks of `walletPreflightCheck` (approval blocking
with the strict USDC exception, and the per-transaction USDC transfer
cap), followed by simulation and the daily-cap commit. -/
def erc20PolicyAndTail (cfg : WalletGuardConfig) (toLower : Option String)
    (valueWei : Int) (decoded : Option DecodedErc20)
    (simulate : Option SimulationResult) (ledgerFile : Option Ledger)
    (today : String) : Except String Unit × List Ledger :=
  let approveCheck : Except String Unit :=
    match decoded with
    | some (DecodedErc20.approve spender amount) =>
      if cfg.blockTokenApprovals then
        let isUsdc := match cfg.usdc, toLower with
          | some usdc, some t => t = usdc.tokenAddress
          | _, _ => false
        match cfg.usdc with
        | some usdc =>
          if !isUsdc || !usdc.allowApprovals then
            Except.error "Token approval transactions are blocked by policy"
          else
            let spenderLower := spender.toLower
            if !((usdc.allowlistedSpenders.getD []).contains spenderLower) then
              Except.error ("Approval spender not allowlisted: " ++ spender)
            else if amount < 0 then Except.error "Invalid approval amount"
            else if usdc.maxApprovalUnits < amount then
              Except.error ("USDC approval exceeds max: " ++ toString amount ++
                " > " ++ toString usdc.maxApprovalUnits)
            else Except.ok ()
        | none => Except.error "Token approval transactions are blocked by policy"
      else Except.ok ()
    | _ => Except.ok ()
  match approveCheck with
  | Except.error e => (Except.error e, [])
  | Except.ok _ =>
    let transferCheck : Except String Unit :=
      match decoded with
      | some (DecodedErc20.transfer _ amount) =>
        match cfg.usdc, toLower with
        | some usdc, some t =>
          if t = usdc.tokenAddress then
            if amount < 0 then Except.error "Invalid token transfer amount"
            else if usdc.maxTxUnits < amount then
              Except.error ("USDC transfer exceeds max per tx: " ++
                toString amount ++ " > " ++ toString usdc.maxTxUnits)
            else Except.ok ()
          else Except.error
            "ERC20 transfer blocked: only configured USDC token is allowed in Phase 3"
        | _, _ => Except.error
            "ERC20 transfer blocked: only configured USDC token is allowed in Phase 3"
      | some (DecodedErc20.transferFrom _ _ amount) =>
        match cfg.usdc, toLower with
        | some usdc, some t =>
          if t = usdc.tokenAddress then
            if amount < 0 then Except.error "Invalid token transfer amount"
            else if usdc.maxTxUnits < amount then
              Except.error ("USDC transfer exceeds max per tx: " ++
                toString amount ++ " > " ++ toString usdc.maxTxUnits)
            else Except.ok ()
          else Except.error
            "ERC20 transfer blocked: only configured USDC token is allowed in Phase 3"
        | _, _ => Except.error
            "ERC20 transfer blocked: only configured USDC token is allowed in Phase 3"
      | _ => Except.ok ()
    match transferCheck with
    | Except.error e => (Except.error e, [])
    | Except.ok _ =>
      if cfg.requireSimulation then
        match simulate with
        | none => (Except.error "Simulation required but no simulator provided", [])
        | some r =>
          if !r.ok then
            (Except.error ("Simulation failed: " ++ r.reason.getD "unknown"), [])
          else dailyCapAndCommit cfg valueWei decoded ledgerFile today
      else dailyCapAndCommit cfg valueWei decoded ledgerFile today

/-- Destination policy, value cap, calldata decoding and the remaining
steps of the guard, entered once the kill switch, chain allowlist and
address well-formedness checks passed. -/
def walletPreflightAfterAddr (cfg : WalletGuardConfig) (tx : TxIntent)
    (simulate : Option SimulationResult) (ledgerFile : Option Ledger)
    (today : String) : Except String Unit × List Ledger :=
  let toLower := (jsTruthyStr tx.to_).map String.toLower
  let blocked := match toLower, cfg.blocklistedTo with
    | some t, some bl => bl.contains t
    | _, _ => false
  if blocked then
    (Except.error ("Destination is blocklisted: " ++ (tx.to_).getD ""), [])
  else
    let notAllowed := match cfg.allowlistedTo, toLower with
      | some al, some t => !(al.contains t)
      | _, _ => false
    if notAllowed then
      (Except.error ("Destination not in allowlist: " ++ (tx.to_).getD ""), [])
    else if cfg.allowlistedTo.isSome && toLower.isNone then
      (Except.error "Contract creation tx blocked (no destination address)", [])
    else
      let valueWei := tx.valueWei.getD 0
      if valueWei < 0 then (Except.error "Invalid tx value", [])
      else if cfg.maxTxValueWei < valueWei then
        (Except.error ("Tx value exceeds maxTxValueWei: " ++ toString valueWei ++
          " > " ++ toString cfg.maxTxValueWei), [])
      else
        let decodedE : Except String (Option DecodedErc20) :=
          if looksLikeErc20Call tx.dataHex then
            decodeErc20 (tx.dataHex.getD "")
          else Except.ok none
        match decodedE with
        | Except.error e => (Except.error e, [])
        | Except.ok decoded =>
          erc20PolicyAndTail cfg toLower valueWei decoded simulate
            ledgerFile today

/-- Validation of the `to` address (`if (tx.to) assertHexAddress(...)`). -/
def walletPreflightAfterFrom (cfg : WalletGuardConfig) (tx : TxIntent)
    (simulate : Option SimulationResult) (ledgerFile : Option Ledger)
    (today : String) : Except String Unit × List Ledger :=
  match jsTruthyStr tx.to_ with
  | some t =>
    if !isHexAddress t then (Except.error "to must be a valid 0x address", [])
    else walletPreflightAfterAddr cfg tx simulate ledgerFile today
  | none => walletPreflightAfterAddr cfg tx simulate ledgerFile today

/-- `walletPreflightCheck` from `wallet-guard.ts`.  The simulator is an
injected external collaborator, so its answer (when one is configured)
is passed as data; `ledgerFile` is the current content of the ledger
file (`none` when missing or unreadable) and `today` is
`dayKeyLocal()`.  The first component is the thrown error or success;
the second lists the ledger records written by `writeLedger`. -/
def walletPreflightCheck (cfg : WalletGuardConfig) (tx : TxIntent)
    (simulate : Option SimulationResult) (ledgerFile : Option Ledger)
    (today : String) : Except String Unit × List Ledger :=
  if !cfg.autonomyEnabled then
    (Except.error "Wallet autonomy disabled (WALLET_AUTONOMY_ENABLED=false)", [])
  else if !(cfg.allowedChainIds.contains tx.chainId) then
    (Except.error ("ChainId not allowed: " ++ toString tx.chainId), [])
  else match jsTruthyStr tx.from_ with
  | some f =>
    if !isHexAddress f then (Except.error "from must be a valid 0x address", [])
    else walletPreflightAfterFrom cfg tx simulate ledgerFile today
  | none => walletPreflightAfterFrom cfg tx simulate ledgerFile today

/-! ## Confirmation broker (`tx-confirmation.ts`) -/

/-- A Prepared Transaction record of the broker store (the digest and
preview are opaque here: the digest is a sha256 over the canonicalized
intent, computed outside the store logic). -/
structure PreparedTx where
  token : String
  expiresAt : Nat
  used : Bool
  digest : String
  intent : TxIntent
  preview : String
deriving DecidableEq, Repr

/-- `getPreparedTx`: absent tokens resolve to nothing; an expired record
(`now > expiresAt`) is evicted and treated as absent; otherwise the
record is returned unchanged, whatever its `used` flag. -/
def getPreparedTx (store : List PreparedTx) (token : String)
    (nowMs : Nat) : Option PreparedTx × List PreparedTx :=
  match store.find? (fun p => p.token = token) with
  | none => (none, store)
  | some p =>
    if p.expiresAt < nowMs then (none, store.filter (fun q => !(q.token = token)))
    else (some p, store)

/-- `markUsed`: flag the record consumed; the record stays resolvable. -/
def markUsed (store : List PreparedTx) (token : String) : List PreparedTx :=
  store.map (fun p => if p.token = token then { p with used := true } else p)

/-! ## Risk evaluation (`engine/risk.ts`) -/

structure MarketSnapshot where
  asOf : String
  chain : String
deriving DecidableEq, Repr

structure PortfolioState where
  asOf : String
  chain : String
deriving DecidableEq, Repr

structure DecideInput where
  snapshot : MarketSnapshot
  portfolio : PortfolioState
deriving DecidableEq, Repr

/-- An intent as seen by `evaluateRisk`.  The source reads fields off
the tagged union dynamically (`(intent as any)[field]`), so the variant
payloads are optional fields; `maxSlippageBps` present models
`"maxSlippageBps" in intent`. -/
structure Intent where
  id : String
  createdAt : String
  intentType : String
  chain : String
  fromAsset : Option String
  toAsset : Option String
  amountIn : Option String
  amountOut : Option String
  maxAmountIn : Option String
  maxSlippageBps : Option Int
deriving DecidableEq, Repr

structure PolicyDecision where
  intentId : String
  approved : Bool
  reasons : List String
  metrics : List (String × String)
deriving DecidableEq, Repr

/-- The regex `^\d+(\.\d+)?$` of the numeric-amount validation. -/
def isDecimalString (s : String) : Bool :=
  match s.toList.span Char.isDigit with
  | (ip, rest) =>
    !ip.isEmpty &&
      (rest.isEmpty ||
        match rest with
        | '.' :: frac => !frac.isEmpty && frac.all Char.isDigit
        | _ => false)

/-- Reasons contributed by one numeric-amount field: the regex check,
and the literal zero check `s === "0" || s === "0.0"`. -/
def amountReasons (field : String) (value : Option String) : List String :=
  match value with
  | none => []
  | some s =>
    (if !isDecimalString s then [field ++ " must be a numeric string."] else []) ++
      (if s = "0" || s = "0.0" then [field ++ " must be > 0."] else [])

/-- The reasons accumulated by `evaluateRisk` for one intent, in source
order: chain, slippage bounds, then amountIn / amountOut / maxAmountIn. -/
def riskReasons (intent : Intent) : List String :=
  (if intent.chain ≠ "base" then
    ["Only Base chain supported in Phase B skeleton."] else []) ++
  (match intent.maxSlippageBps with
   | some bps =>
     (if bps ≤ 0 then ["maxSlippageBps must be > 0."] else []) ++
       (if 100 < bps then
         ["maxSlippageBps too high (>100 bps) for safe default."] else [])
   | none => []) ++
  amountReasons "amountIn" intent.amountIn ++
  amountReasons "amountOut" intent.amountOut ++
  amountReasons "maxAmountIn" intent.maxAmountIn

/-- `evaluateRisk` from `engine/risk.ts`: one decision per intent,
approved exactly when no reason accumulated, with `["OK"]` standing in
for an empty reason list. -/
def evaluateRisk (input : DecideInput) (intents : List Intent) :
    List PolicyDecision :=
  intents.map (fun intent =>
    let reasons := riskReasons intent
    { intentId := intent.id
      approved := reasons.isEmpty
      reasons := if reasons.isEmpty then ["OK"] else reasons
      metrics := [("riskVersion", "v1")] })

/-- Modelled from the spec words, for comparison with `evaluateRisk`: a
present amount field must "parse as a non-negative decimal string and be
strictly positive", i.e. match the decimal regex and have a nonzero
digit somewhere. -/
def specAmountOk (value : Option String) : Bool :=
  match value with
  | none => true
  | some s => isDecimalString s && s.toList.any (fun c => c.isDigit && c ≠ '0')

/-- Modelled from the spec words: approval under the three spec rules
(supported chain, slippage in (0, 100] when present, strictly positive
well-formed amounts). -/
def specRiskApproved (intent : Intent) : Bool :=
  intent.chain = "base" &&
    (match intent.maxSlippageBps with
     | some bps => 0 < bps && bps ≤ 100
     | none => true) &&
    specAmountOk intent.amountIn && specAmountOk intent.amountOut &&
    specAmountOk intent.maxAmountIn

/-! ## Scheduler (`tasks/scheduler.ts`) -/

/-- Civil date from days since 1970-01-01 (the Gregorian conversion
performed by `Date.prototype.toISOString`). -/
def civilFromDays (days : Nat) : Nat × Nat × Nat :=
  let z := days + 719468
  let era := z / 146097
  let doe := z % 146097
  let yoe := (doe - doe / 1460 + doe / 36524 - doe / 146096) / 365
  let y := yoe + era * 400
  let doy := doe - (365 * yoe + yoe / 4 - yoe / 100)
  let mp := (5 * doy + 2) / 153
  let d := doy - (153 * mp + 2) / 5 + 1
  let m := if mp < 10 then mp + 3 else mp - 9
  (if m ≤ 2 then y + 1 else y, m, d)

def pad2 (n : Nat) : String :=
  if n < 10 then "0" ++ toString n else toString n

def pad3 (n : Nat) : String :=
  if n < 10 then "00" ++ toString n
  else if n < 100 then "0" ++ toString n
  else toString n

def pad4 (n : Nat) : String :=
  if n < 10 then "000" ++ toString n
  else if n < 100 then "00" ++ toString n
  else if n < 1000 then "0" ++ toString n
  else toString n

/-- `new Date(ms).toISOString()` for a non-negative epoch timestamp:
`YYYY-MM-DDTHH:mm:ss.sssZ`. -/
def isoOfMs (ms : Nat) : String :=
  let rem := ms % 86400000
  let ymd := civilFromDays (ms / 86400000)
  pad4 ymd.1 ++ "-" ++ pad2 ymd.2.1 ++ "-" ++ pad2 ymd.2.2 ++ "T" ++
    pad2 (rem / 3600000) ++ ":" ++ pad2 (rem % 3600000 / 60000) ++ ":" ++
    pad2 (rem % 60000 / 1000) ++ "." ++ pad3 (rem % 1000) ++ "Z"

/-- `bucketIso` from `scheduler.ts`:
`new Date(Math.floor(now / interval) * interval).toISOString()`. -/
def bucketIso (nowMs intervalMs : Nat) : String :=
  isoOfMs (nowMs / intervalMs * intervalMs)

/-- The idempotency key built by each scheduler tick:
`STRATEGY_TICK:base:<bucket-iso>`. -/
def schedulerTaskKey (nowMs intervalMs : Nat) : String :=
  "STRATEGY_TICK:base:" ++ bucketIso nowMs intervalMs


/-- A task is eligible for claiming at `now`: QUEUED, due, and without a
live (unexpired) lease. -/
def eligibleProp (s : QueueState) (now : Nat) (t : TaskRecord) : Prop :=
  t.state = TaskState.queued ∧ t.runAfterMs ≤ now ∧
    ∀ l ∈ s.locks, now < l.lockUntilMs → l.taskId ≠ t.id

/-! ## Helper lemmas -/

theorem claimOrderLt_iff (a b : TaskRecord) :
    claimOrderLt a b = true ↔
      (b.priority < a.priority ∨
        (a.priority = b.priority ∧
          (a.runAfterMs < b.runAfterMs ∨
            (a.runAfterMs = b.runAfterMs ∧ a.createdAtMs < b.createdAtMs)))) := by
  simp [claimOrderLt]

theorem claimOrderLt_irrefl (a : TaskRecord) : claimOrderLt a a = false := by
  cases h : claimOrderLt a a
  · rfl
  · rw [claimOrderLt_iff] at h
    omega

theorem claimOrderLt_shift (u b t : TaskRecord)
    (h1 : claimOrderLt u t = true) (h2 : claimOrderLt b t = false) :
    claimOrderLt u b = true := by
  have h2' : ¬(claimOrderLt b t = true) := by simp [h2]
  rw [claimOrderLt_iff] at h1 h2' ⊢
  omega

theorem claimOrderLt_asymm (a b : TaskRecord)
    (h : claimOrderLt a b = true) : claimOrderLt b a = false := by
  cases h2 : claimOrderLt b a
  · rfl
  · rw [claimOrderLt_iff] at h h2
    omega

theorem pickBest_eq_none {l : List TaskRecord} :
    pickBest l = none ↔ l = [] := by
  cases l with
  | nil => simp [pickBest]
  | cons t ts =>
    simp only [pickBest]
    constructor
    · intro h
      exfalso
      cases hb : pickBest ts with
      | none => rw [hb] at h; simp at h
      | some b =>
        rw [hb] at h
        by_cases hlt : claimOrderLt b t = true <;> simp [hlt] at h
    · intro h; simp at h

theorem pickBest_mem : ∀ (l : List TaskRecord) (t : TaskRecord),
    pickBest l = some t → t ∈ l := by
  intro l
  induction l with
  | nil => intro t h; simp [pickBest] at h
  | cons a as ih =>
    intro t h
    simp only [pickBest] at h
    cases hb : pickBest as with
    | none =>
      rw [hb] at h
      simp at h
      rw [← h]
      exact List.mem_cons_self a as
    | some b =>
      rw [hb] at h
      by_cases hlt : claimOrderLt b a = true
      · simp [hlt] at h
        rw [← h]
        exact List.mem_cons_of_mem a (ih b hb)
      · simp [hlt] at h
        rw [← h]
        exact List.mem_cons_self a as

theorem pickBest_min : ∀ (l : List TaskRecord) (t : TaskRecord),
    pickBest l = some t → ∀ u ∈ l, claimOrderLt u t = false := by
  intro l
  induction l with
  | nil => intro t h; simp [pickBest] at h
  | cons a as ih =>
    intro t h u hu
    simp only [pickBest] at h
    cases hb : pickBest as with
    | none =>
      rw [hb] at h
      simp at h
      rw [← h]
      have hnil : as = [] := pickBest_eq_none.mp hb
      subst hnil
      rcases List.mem_cons.mp hu with rfl | hu2
      · exact claimOrderLt_irrefl u
      · simp at hu2
    | some b =>
      rw [hb] at h
      by_cases hlt : claimOrderLt b a = true
      · simp [hlt] at h
        rw [← h]
        rcases List.mem_cons.mp hu with rfl | hu2
        · exact claimOrderLt_asymm b u hlt
        · exact ih b hb u hu2
      · simp [hlt] at h
        rw [← h]
        rcases List.mem_cons.mp hu with rfl | hu2
        · exact claimOrderLt_irrefl u
        · cases hc : claimOrderLt u a
          · rfl
          · exfalso
            have hba : claimOrderLt b a = false := by
              cases hx : claimOrderLt b a
              · rfl
              · exact absurd hx hlt
            have h2 : claimOrderLt u b = true := claimOrderLt_shift u b a hc hba
            have h3 : claimOrderLt u b = false := ih b hb u hu2
            rw [h3] at h2
            exact Bool.noConfusion h2

/-! ## C3: idempotent enqueue versus the migrated schema -/

/-- C3: the claim needs `enqueueTask` to deduplicate on `schedule_key`,
but the `tasks` table created by `migrateTasksDb` has no `task_key`
column at all (let alone a UNIQUE constraint on it), while the INSERT
statement of `enqueueTask` names that column: against the migrated
schema every enqueue fails at statement preparation instead of
inserting once and reporting duplicates. -/
theorem C3_taskKey_column_missing :
    "task_key" ∈ enqueueInsertColumns ∧ "task_key" ∉ tasksTableColumns := by
  decide

/-! ## C8: scheduler idempotency key -/

/-- C8 counterexample: the tick in the 2024-01-01T00:00:00Z bucket with
interval 60000 produces the key prefixed by the job type STRATEGY_TICK,
not the key `TICK:base:2024-01-01T00:00:00.000Z` stated by the claim. -/
theorem C8_counterexample :
    schedulerTaskKey 1704067212345 60000 =
      "STRATEGY_TICK:base:2024-01-01T00:00:00.000Z" ∧
    ¬ schedulerTaskKey 1704067212345 60000 =
      "TICK:base:2024-01-01T00:00:00.000Z" := by
  exact ⟨by decide, by decide⟩

/-- C8 (amended): each scheduler tick computes
`bucket = floor(now / interval) * interval` and enqueues under the key
`STRATEGY_TICK:<chain>:<bucket-iso>`; any two ticks in the same bucket
build the same key, and the tick in the 2024-01-01T00:00:00Z bucket
with interval 60000 yields
`STRATEGY_TICK:base:2024-01-01T00:00:00.000Z`. -/
theorem C8_scheduler_key (now i : Nat) :
    schedulerTaskKey now i = "STRATEGY_TICK:base:" ++ isoOfMs (now / i * i) ∧
    (∀ m : Nat, m / i = now / i → schedulerTaskKey m i = schedulerTaskKey now i) ∧
    schedulerTaskKey 1704067212345 60000 =
      "STRATEGY_TICK:base:2024-01-01T00:00:00.000Z" := by
  refine ⟨rfl, ?_, by decide⟩
  intro m hm
  simp only [schedulerTaskKey, bucketIso, hm]

/-- C8 witness: two ticks inside the same 60-second bucket produce the
same idempotency key. -/
theorem C8_scheduler_key_witness :
    schedulerTaskKey 1704067212345 60000 = schedulerTaskKey 1704067259999 60000 :=
  (C8_scheduler_key 1704067259999 60000).2.1 1704067212345 (by decide)

/-! ## C9: confirmation broker resolution -/

theorem markUsed_find (store : List PreparedTx) (token : String) :
    (markUsed store token).find? (fun q => q.token = token) =
      (store.find? (fun q => q.token = token)).map
        (fun p => { p with used := true }) := by
  induction store with
  | nil => rfl
  | cons a as ih =>
    by_cases h : a.token = token
    · simp [markUsed, h]
    · simp [markUsed, h]
      simpa [markUsed] using ih

/-- C9: `getPreparedTx` returns the stored record exactly when it is
present and unexpired (`now <= expiresAt`); an expired entry resolves to
nothing and is evicted by the call itself; and `markUsed` does not
affect resolution — a used record still resolves (with its flag set)
until it expires. -/
theorem C9_broker_resolution (store : List PreparedTx) (token : String)
    (now : Nat) :
    (∀ p : PreparedTx, (getPreparedTx store token now).1 = some p ↔
      (store.find? (fun q => q.token = token) = some p ∧ now ≤ p.expiresAt)) ∧
    (∀ p : PreparedTx, store.find? (fun q => q.token = token) = some p →
      p.expiresAt < now →
      (getPreparedTx store token now).1 = none ∧
      (getPreparedTx store token now).2 =
        store.filter (fun q => !(q.token = token))) ∧
    (∀ p : PreparedTx, store.find? (fun q => q.token = token) = some p →
      now ≤ p.expiresAt →
      (getPreparedTx (markUsed store token) token now).1 =
        some { p with used := true }) := by
  refine ⟨?_, ?_, ?_⟩
  · intro p
    unfold getPreparedTx
    cases h : store.find? (fun q => q.token = token) with
    | none => simp
    | some p0 =>
      by_cases he : p0.expiresAt < now
      · simp [he]
        intro hp
        subst hp
        omega
      · simp [he]
        intro hp
        subst hp
        omega
  · intro p hf he
    unfold getPreparedTx
    rw [hf]
    simp [he]
  · intro p hf he
    unfold getPreparedTx
    rw [markUsed_find, hf]
    have : ¬ (({ p with used := true } : PreparedTx).expiresAt < now) := by
      simp
      omega
    simp [this]

/-- C9 witness: a marked-used but unexpired record still resolves, with
its `used` flag set. -/
theorem C9_broker_resolution_witness :
    (getPreparedTx
      (markUsed [⟨"tok", 100, false, "dg", ⟨8453, none, none, none, none⟩, "pv"⟩]
        "tok") "tok" 50).1 =
      some ⟨"tok", 100, true, "dg", ⟨8453, none, none, none, none⟩, "pv"⟩ :=
  (C9_broker_resolution
    [⟨"tok", 100, false, "dg", ⟨8453, none, none, none, none⟩, "pv"⟩]
    "tok" 50).2.2
    ⟨"tok", 100, false, "dg", ⟨8453, none, none, none, none⟩, "pv"⟩
    (by decide) (by decide)

/-! ## C5: risk evaluation rules -/

theorem amountReasons_eq_nil (field : String) (o : Option String) :
    amountReasons field o = [] ↔
      ∀ s, o = some s → (isDecimalString s = true ∧ s ≠ "0" ∧ s ≠ "0.0") := by
  cases o with
  | none => simp [amountReasons]
  | some s =>
    simp only [amountReasons, List.append_eq_nil, Option.some.injEq]
    constructor
    · rintro ⟨ha, hb⟩ s' hs'
      subst hs'
      refine ⟨?_, ?_, ?_⟩
      · cases hd : isDecimalString s
        · simp [hd] at ha
        · rfl
      · intro hz
        simp [hz] at hb
      · intro hz
        simp [hz] at hb
    · intro h
      obtain ⟨h1, h2, h3⟩ := h s rfl
      simp [h1, h2, h3]

theorem riskReasons_eq_nil (intent : Intent) :
    riskReasons intent = [] ↔
      (intent.chain = "base" ∧
        (∀ bps, intent.maxSlippageBps = some bps → 0 < bps ∧ bps ≤ 100) ∧
        (∀ s, intent.amountIn = some s →
          isDecimalString s = true ∧ s ≠ "0" ∧ s ≠ "0.0") ∧
        (∀ s, intent.amountOut = some s →
          isDecimalString s = true ∧ s ≠ "0" ∧ s ≠ "0.0") ∧
        (∀ s, intent.maxAmountIn = some s →
          isDecimalString s = true ∧ s ≠ "0" ∧ s ≠ "0.0")) := by
  have hchain : ((if intent.chain ≠ "base" then
      ["Only Base chain supported in Phase B skeleton."] else []) = []) ↔
      intent.chain = "base" := by
    by_cases h : intent.chain = "base" <;> simp [h]
  have hslip : ((match intent.maxSlippageBps with
      | some bps =>
        (if bps ≤ 0 then ["maxSlippageBps must be > 0."] else []) ++
          (if 100 < bps then
            ["maxSlippageBps too high (>100 bps) for safe default."] else [])
      | none => []) = []) ↔
      (∀ bps, intent.maxSlippageBps = some bps → 0 < bps ∧ bps ≤ 100) := by
    cases hs : intent.maxSlippageBps with
    | none => simp
    | some bps =>
      simp only [List.append_eq_nil, Option.some.injEq]
      by_cases h1 : bps ≤ 0 <;> by_cases h2 : 100 < bps <;>
        simp [h1, h2] <;> omega
  unfold riskReasons
  rw [List.append_eq_nil, List.append_eq_nil, List.append_eq_nil,
    List.append_eq_nil, hchain, hslip, amountReasons_eq_nil,
    amountReasons_eq_nil, amountReasons_eq_nil]
  tauto

/-- C5 counterexample: the amount string `0.00` is zero-valued, so under
the claim the intent must be rejected (amounts must be strictly
positive); `evaluateRisk` approves it, because the zero check only
matches the literal strings `0` and `0.0`. -/
theorem C5_counterexample :
    (evaluateRisk ⟨⟨"a", "base"⟩, ⟨"a", "base"⟩⟩
      [⟨"i1", "t0", "SPOT_SWAP_EXACT_IN", "base", some "USDC", some "WETH",
        some "0.00", none, none, some 50⟩]).map PolicyDecision.approved =
      [true] ∧
    specRiskApproved ⟨"i1", "t0", "SPOT_SWAP_EXACT_IN", "base", some "USDC",
      some "WETH", some "0.00", none, none, some 50⟩ = false := by
  exact ⟨by decide, by decide⟩

/-- C5 (amended): `evaluateRisk` approves an intent iff its chain is
`base`, any present slippage bound lies in (0, 100], and every present
numeric-amount field matches `\d+(\.\d+)?` and is not the literal
string `0` or `0.0` (zero-valued spellings such as `0.00` are
accepted).  Approved decisions carry the single marker OK, rejected
ones list each violated rule; a slippage bound of 150 is rejected with
the 100 bps ceiling reason, and a bound of 50 passes. -/
theorem C5_risk_eval (input : DecideInput) (intent : Intent) :
    (∀ d ∈ evaluateRisk input [intent],
      (d.approved = true ↔
        (intent.chain = "base" ∧
          (∀ bps, intent.maxSlippageBps = some bps → 0 < bps ∧ bps ≤ 100) ∧
          (∀ s, intent.amountIn = some s →
            isDecimalString s = true ∧ s ≠ "0" ∧ s ≠ "0.0") ∧
          (∀ s, intent.amountOut = some s →
            isDecimalString s = true ∧ s ≠ "0" ∧ s ≠ "0.0") ∧
          (∀ s, intent.maxAmountIn = some s →
            isDecimalString s = true ∧ s ≠ "0" ∧ s ≠ "0.0"))) ∧
      (d.approved = true → d.reasons = ["OK"]) ∧
      (d.approved = false → d.reasons = riskReasons intent) ∧
      (intent.maxSlippageBps = some 150 → d.approved = false ∧
        "maxSlippageBps too high (>100 bps) for safe default." ∈ d.reasons)) ∧
    (∀ d ∈ evaluateRisk input
      [⟨"i1", "t0", "SPOT_SWAP_EXACT_IN", "base", some "USDC", some "WETH",
        some "1.5", none, none, some 50⟩], d.approved = true) := by
  constructor
  · intro d hd
    simp only [evaluateRisk, List.map_cons, List.map_nil,
      List.mem_singleton] at hd
    subst hd
    refine ⟨?_, ?_, ?_, ?_⟩
    · simp only [List.isEmpty_iff]
      exact riskReasons_eq_nil intent
    · intro ha
      simp only [List.isEmpty_iff] at ha ⊢
      simp [ha]
    · intro ha
      simp only at ha
      simp only [ha]
      simp
    · intro hs
      have hm : "maxSlippageBps too high (>100 bps) for safe default." ∈
          riskReasons intent := by
        unfold riskReasons
        rw [hs]
        simp
      have hne : (riskReasons intent).isEmpty = false := by
        cases hE : (riskReasons intent).isEmpty
        · rfl
        · exfalso
          have hnil : riskReasons intent = [] := by
            simpa [List.isEmpty_iff] using hE
          rw [hnil] at hm
          simp at hm
      constructor
      · exact hne
      · show "maxSlippageBps too high (>100 bps) for safe default." ∈
          (if (riskReasons intent).isEmpty = true then ["OK"]
            else riskReasons intent)
        simp only [hne]
        simpa using hm
  · intro d hd
    have hev : evaluateRisk input
        [⟨"i1", "t0", "SPOT_SWAP_EXACT_IN", "base", some "USDC", some "WETH",
          some "1.5", none, none, some 50⟩] =
        [⟨"i1", true, ["OK"], [("riskVersion", "v1")]⟩] := rfl
    rw [hev] at hd
    simp only [List.mem_singleton] at hd
    subst hd
    rfl

/-- C5 witness: a slippage bound of 150 yields a rejected decision whose
reasons include the 100 bps ceiling message. -/
theorem C5_risk_eval_witness :
    (⟨"i1", false, ["maxSlippageBps too high (>100 bps) for safe default."],
      [("riskVersion", "v1")]⟩ : PolicyDecision).approved = false ∧
    "maxSlippageBps too high (>100 bps) for safe default." ∈
      (⟨"i1", false,
        ["maxSlippageBps too high (>100 bps) for safe default."],
        [("riskVersion", "v1")]⟩ : PolicyDecision).reasons :=
  ((C5_risk_eval ⟨⟨"a", "base"⟩, ⟨"a", "base"⟩⟩
      ⟨"i1", "t0", "SPOT_SWAP_EXACT_IN", "base", some "USDC", some "WETH",
        some "1.5", none, none, some 150⟩).1
    ⟨"i1", false, ["maxSlippageBps too high (>100 bps) for safe default."],
      [("riskVersion", "v1")]⟩ (by decide)).2.2.2 rfl

/-! ## Claim transition helpers -/

theorem claimNextTask_none_eq (s : QueueState) (w : String) (ttl now : Nat)
    (hp : pickBest (s.tasks.filter
      (runnable (s.locks.filter (fun l => !(l.lockUntilMs ≤ now))) now)) =
      none) :
    claimNextTask w ttl now s =
      (none, ⟨s.tasks, s.locks.filter (fun l => !(l.lockUntilMs ≤ now))⟩) := by
  simp only [claimNextTask]
  rw [hp]

theorem claimNextTask_some_eq (s : QueueState) (w : String) (ttl now : Nat)
    (picked : TaskRecord)
    (hp : pickBest (s.tasks.filter
      (runnable (s.locks.filter (fun l => !(l.lockUntilMs ≤ now))) now)) =
      some picked) :
    claimNextTask w ttl now s =
      (some ⟨markClaimed now picked, now + ttl⟩,
        ⟨s.tasks.map
          (fun u => if u.id = picked.id then markClaimed now u else u),
          s.locks.filter (fun l => !(l.lockUntilMs ≤ now)) ++
            [⟨picked.id, w, now + ttl⟩]⟩) := by
  simp only [claimNextTask]
  rw [hp]

theorem runnable_iff (s : QueueState) (now : Nat) (t : TaskRecord) :
    runnable (s.locks.filter (fun l => !(l.lockUntilMs ≤ now))) now t = true ↔
      eligibleProp s now t := by
  simp only [runnable, eligibleProp, Bool.and_eq_true, Bool.not_eq_true',
    List.any_eq_false, List.mem_filter, decide_eq_true_eq,
    Bool.not_eq_true, Bool.and_eq_true]
  constructor
  · rintro ⟨⟨h1, h2⟩, h3⟩
    refine ⟨h1, h2, ?_⟩
    intro l hl hlive hid
    have := h3 l ⟨hl, by simpa using hlive⟩
    simp [hid] at this
  · rintro ⟨h1, h2, h3⟩
    refine ⟨⟨h1, h2⟩, ?_⟩
    intro l hl
    obtain ⟨hmem, hlive⟩ := hl
    have hlive2 : ¬(l.lockUntilMs ≤ now) := by simpa using hlive
    have := h3 l hmem (by omega)
    simp [this]

/-! ## C10: claim resets last_error and touches nothing else -/

/-- C10: when `claimNextTask` returns a job, that job record has
`last_error = NULL` (so an earlier failure message is no longer
observable) and state RUNNING, and the stored table is the original one
with exactly the claimed row rewritten: state, attempts (+1),
updated_at and last_error change, every other field and every other row
is untouched. -/
theorem C10_claim_frame (s : QueueState) (w : String) (ttl now : Nat) :
    ∀ j u, (claimNextTask w ttl now s).1 = some ⟨j, u⟩ →
      j.lastError = none ∧ j.state = TaskState.running ∧
      (claimNextTask w ttl now s).2.tasks = s.tasks.map
        (fun t => if t.id = j.id then
          { t with
            state := TaskState.running
            attempts := t.attempts + 1
            updatedAtMs := now
            lastError := none } else t) := by
  intro j u h
  cases hp : pickBest (s.tasks.filter
      (runnable (s.locks.filter (fun l => !(l.lockUntilMs ≤ now))) now)) with
  | none =>
    rw [claimNextTask_none_eq s w ttl now hp] at h
    simp at h
  | some picked =>
    rw [claimNextTask_some_eq s w ttl now picked hp] at h ⊢
    simp only [Option.some.injEq, ClaimedTask.mk.injEq] at h
    obtain ⟨hj, hu⟩ := h
    rw [← hj]
    exact ⟨rfl, rfl, rfl⟩

/-- C10 witness: claiming a queued job that carries an old error message
returns it with `last_error` cleared. -/
theorem C10_claim_frame_witness :
    (⟨"t1", "NOOP", "null", TaskState.running, 0, 1, 5, 0, 0, 100, none,
      none⟩ : TaskRecord).lastError = none :=
  (C10_claim_frame
    ⟨[⟨"t1", "NOOP", "null", TaskState.queued, 0, 0, 5, 0, 0, 0,
      some "boom", none⟩], []⟩ "w1" 10 100
    ⟨"t1", "NOOP", "null", TaskState.running, 0, 1, 5, 0, 0, 100, none, none⟩
    110 (by decide)).1

/-! ## C2: atomic claim of the next eligible job -/

/-- C2: `claimNextTask` atomically deletes expired leases, returns none
exactly when no QUEUED job with `run_after <= now` and no live lease
exists, and otherwise claims an eligible job that no other eligible job
strictly precedes under priority DESC, run_after ASC, created_at ASC:
it inserts a fresh lease for it (holder, expiry now + ttl), marks it
RUNNING with attempts incremented, and returns the updated row.  Two
sequential claims (the transactions are serialized by BEGIN IMMEDIATE)
never return the same job. -/
theorem C2_claim_transition (s : QueueState) (w : String) (ttl now : Nat) :
    ((claimNextTask w ttl now s).1 = none ↔
      ∀ t ∈ s.tasks, ¬ eligibleProp s now t) ∧
    ((claimNextTask w ttl now s).1 = none →
      (claimNextTask w ttl now s).2 =
        ⟨s.tasks, s.locks.filter (fun l => !(l.lockUntilMs ≤ now))⟩) ∧
    (∀ j u, (claimNextTask w ttl now s).1 = some ⟨j, u⟩ →
      u = now + ttl ∧
      ∃ t ∈ s.tasks, eligibleProp s now t ∧
        (∀ t2 ∈ s.tasks, eligibleProp s now t2 → claimOrderLt t2 t = false) ∧
        j = markClaimed now t ∧
        j.state = TaskState.running ∧ j.attempts = t.attempts + 1 ∧
        (claimNextTask w ttl now s).2.locks =
          s.locks.filter (fun l => !(l.lockUntilMs ≤ now)) ++
            [⟨t.id, w, now + ttl⟩] ∧
        (claimNextTask w ttl now s).2.tasks =
          s.tasks.map
            (fun t2 => if t2.id = t.id then markClaimed now t2 else t2)) ∧
    (∀ j u j2 u2 w2 ttl2 now2,
      (claimNextTask w ttl now s).1 = some ⟨j, u⟩ →
      (claimNextTask w2 ttl2 now2 (claimNextTask w ttl now s).2).1 =
        some ⟨j2, u2⟩ →
      j2.id ≠ j.id) := by
  refine ⟨?_, ?_, ?_, ?_⟩
  · cases hp : pickBest (s.tasks.filter
        (runnable (s.locks.filter (fun l => !(l.lockUntilMs ≤ now))) now)) with
    | none =>
      rw [claimNextTask_none_eq s w ttl now hp]
      simp only [true_iff]
      have hnil : s.tasks.filter
          (runnable (s.locks.filter (fun l => !(l.lockUntilMs ≤ now))) now) =
          [] := pickBest_eq_none.mp hp
      intro t ht he
      have hr : runnable (s.locks.filter (fun l => !(l.lockUntilMs ≤ now)))
          now t = true := (runnable_iff s now t).mpr he
      have : t ∈ s.tasks.filter
          (runnable (s.locks.filter (fun l => !(l.lockUntilMs ≤ now))) now) :=
        List.mem_filter.mpr ⟨ht, hr⟩
      rw [hnil] at this
      simp at this
    | some picked =>
      rw [claimNextTask_some_eq s w ttl now picked hp]
      constructor
      · intro h
        simp at h
      · intro hall
        exfalso
        have hmem := pickBest_mem _ _ hp
        obtain ⟨hm, hr⟩ := List.mem_filter.mp hmem
        exact hall picked hm ((runnable_iff s now picked).mp hr)
  · intro h
    cases hp : pickBest (s.tasks.filter
        (runnable (s.locks.filter (fun l => !(l.lockUntilMs ≤ now))) now)) with
    | none => rw [claimNextTask_none_eq s w ttl now hp]
    | some picked =>
      rw [claimNextTask_some_eq s w ttl now picked hp] at h
      simp at h
  · intro j u h
    cases hp : pickBest (s.tasks.filter
        (runnable (s.locks.filter (fun l => !(l.lockUntilMs ≤ now))) now)) with
    | none =>
      rw [claimNextTask_none_eq s w ttl now hp] at h
      simp at h
    | some picked =>
      rw [claimNextTask_some_eq s w ttl now picked hp] at h ⊢
      simp only [Option.some.injEq, ClaimedTask.mk.injEq] at h
      obtain ⟨hj, hu⟩ := h
      have hmem := pickBest_mem _ _ hp
      obtain ⟨hm, hr⟩ := List.mem_filter.mp hmem
      refine ⟨hu.symm, picked, hm, (runnable_iff s now picked).mp hr,
        ?_, hj.symm, ?_, ?_, rfl, rfl⟩
      · intro t2 ht2 he2
        exact pickBest_min _ _ hp t2
          (List.mem_filter.mpr ⟨ht2, (runnable_iff s now t2).mpr he2⟩)
      · rw [← hj]; rfl
      · rw [← hj]; rfl
  · intro j u j2 u2 w2 ttl2 now2 h1 h2 hid
    cases hp : pickBest (s.tasks.filter
        (runnable (s.locks.filter (fun l => !(l.lockUntilMs ≤ now))) now)) with
    | none =>
      rw [claimNextTask_none_eq s w ttl now hp] at h1
      simp at h1
    | some picked =>
      rw [claimNextTask_some_eq s w ttl now picked hp] at h1 h2
      simp only [Option.some.injEq, ClaimedTask.mk.injEq] at h1
      obtain ⟨hj, hu⟩ := h1
      set s1 : QueueState :=
        ⟨s.tasks.map (fun u => if u.id = picked.id then markClaimed now u else u),
          s.locks.filter (fun l => !(l.lockUntilMs ≤ now)) ++
            [⟨picked.id, w, now + ttl⟩]⟩ with hs1
      cases hp2 : pickBest (s1.tasks.filter
          (runnable (s1.locks.filter (fun l => !(l.lockUntilMs ≤ now2)))
            now2)) with
      | none =>
        rw [claimNextTask_none_eq s1 w2 ttl2 now2 hp2] at h2
        simp at h2
      | some picked2 =>
        rw [claimNextTask_some_eq s1 w2 ttl2 now2 picked2 hp2] at h2
        simp only [Option.some.injEq, ClaimedTask.mk.injEq] at h2
        obtain ⟨hj2, hu2⟩ := h2
        have hmem2 := pickBest_mem _ _ hp2
        obtain ⟨hm2, hr2⟩ := List.mem_filter.mp hmem2
        have hq2 : picked2.state = TaskState.queued := by
          have := (runnable_iff s1 now2 picked2).mp hr2
          exact this.1
        have hid2 : picked2.id = picked.id := by
          have e1 : j2.id = picked2.id := by rw [← hj2]; rfl
          have e2 : j.id = picked.id := by rw [← hj]; rfl
          rw [e1, e2] at hid
          exact hid
        obtain ⟨t3, ht3, he3⟩ := List.mem_map.mp hm2
        by_cases h3 : t3.id = picked.id
        · rw [if_pos h3] at he3
          rw [← he3] at hq2
          simp [markClaimed] at hq2
        · rw [if_neg h3] at he3
          rw [← he3] at hid2
          exact h3 hid2

/-- C2 witness: with two queued jobs, two successive claims hand out two
different jobs. -/
theorem C2_claim_transition_witness :
    (⟨"b", "NOOP", "null", TaskState.running, 0, 1, 5, 0, 1, 6, none, none⟩ :
      TaskRecord).id ≠
    (⟨"a", "NOOP", "null", TaskState.running, 0, 1, 5, 0, 0, 5, none, none⟩ :
      TaskRecord).id :=
  (C2_claim_transition
    ⟨[⟨"a", "NOOP", "null", TaskState.queued, 0, 0, 5, 0, 0, 0, none, none⟩,
      ⟨"b", "NOOP", "null", TaskState.queued, 0, 0, 5, 0, 1, 0, none, none⟩],
      []⟩ "w1" 10 5).2.2.2
    ⟨"a", "NOOP", "null", TaskState.running, 0, 1, 5, 0, 0, 5, none, none⟩ 15
    ⟨"b", "NOOP", "null", TaskState.running, 0, 1, 5, 0, 1, 6, none, none⟩ 16
    "w2" 10 6 (by decide) (by decide)

/-! ## C4: stale worker completing or failing a re-claimed job -/

/-- C4 counterexample: job `t1` is RUNNING under worker B with a live
lease until 1000; the prior worker A calls `completeTask` (first three
conjuncts) or `failTask` with a retryable error (last three) at 500.
Neither call is a no-op and neither is rejected: the complete call
flips the job B is executing to SUCCEEDED, and the fail call applies
the failure transition (records the error and re-queues the job with
`run_after = 500 + backoff(1)`), each while leaving the lease of B in
place. -/
theorem C4_counterexample :
    (completeTask "t1" "A" 500
      ⟨[⟨"t1", "NOOP", "null", TaskState.running, 0, 1, 5, 0, 0, 0, none,
        none⟩], [⟨"t1", "B", 1000⟩]⟩).tasks =
      [⟨"t1", "NOOP", "null", TaskState.succeeded, 0, 1, 5, 0, 0, 500, none,
        none⟩] ∧
    TaskState.succeeded ≠ TaskState.running ∧
    (⟨"t1", "B", 1000⟩ : TaskLock) ∈
      (completeTask "t1" "A" 500
        ⟨[⟨"t1", "NOOP", "null", TaskState.running, 0, 1, 5, 0, 0, 0, none,
          none⟩], [⟨"t1", "B", 1000⟩]⟩).locks ∧
    (failTask "t1" "A" "boom" true 500
      ⟨[⟨"t1", "NOOP", "null", TaskState.running, 0, 1, 5, 0, 0, 0, none,
        none⟩], [⟨"t1", "B", 1000⟩]⟩).2.tasks =
      [⟨"t1", "NOOP", "null", TaskState.queued, 0, 1, 5, 5500, 0, 500,
        some "boom", none⟩] ∧
    TaskState.queued ≠ TaskState.running ∧
    (⟨"t1", "B", 1000⟩ : TaskLock) ∈
      (failTask "t1" "A" "boom" true 500
        ⟨[⟨"t1", "NOOP", "null", TaskState.running, 0, 1, 5, 0, 0, 0, none,
          none⟩], [⟨"t1", "B", 1000⟩]⟩).2.locks := by
  exact ⟨by decide, by decide, by decide, by decide, by decide, by decide⟩

/-- C4 (amended): after the job has been re-claimed by a different
worker, the prior worker's `completeTask`/`failTask` never crashes (both
are total here, as in the source, which guards the missing-row case)
and deletes only its own lease — the new holder's lease survives — but
neither call checks lease ownership before updating the job row:
`completeTask` unconditionally marks the job SUCCEEDED, and `failTask`
applies its failure transition to the row (recording the error and a
new `updated_at`, and moving it to FAILED_FINAL or back to QUEUED per
the retry rule), so the state of the job being executed by the new
holder does change. -/
theorem C4_stale_worker (s : QueueState) (tid wOld wNew : String) (now : Nat)
    (l : TaskLock) (hl : l ∈ s.locks) (hln : l.lockedBy = wNew)
    (hlid : l.taskId = tid) (hne : wOld ≠ wNew) :
    l ∈ (completeTask tid wOld now s).locks ∧
    (∀ t ∈ (completeTask tid wOld now s).tasks, t.id = tid →
      t.state = TaskState.succeeded) ∧
    (∀ err retryable, l ∈ (failTask tid wOld err retryable now s).2.locks) ∧
    (∀ err retryable row, s.tasks.find? (fun t => t.id = tid) = some row →
      ∀ t ∈ (failTask tid wOld err retryable now s).2.tasks, t.id = tid →
        t.lastError = some err ∧ t.updatedAtMs = now ∧
        t.state = (if retryable = false ∨ row.maxAttempts ≤ row.attempts
          then TaskState.failedFinal else TaskState.queued)) := by
  have hnw : wNew ≠ wOld := fun h => hne h.symm
  have hfilter : l ∈ s.locks.filter
      (fun x => !(x.taskId = tid && x.lockedBy = wOld)) := by
    apply List.mem_filter.mpr
    refine ⟨hl, ?_⟩
    simp [hlid, hln, hnw]
  refine ⟨hfilter, ?_, ?_, ?_⟩
  · intro t ht htid
    simp only [completeTask] at ht
    obtain ⟨u, hu, hut⟩ := List.mem_map.mp ht
    by_cases h : u.id = tid
    · rw [if_pos h] at hut
      rw [← hut]
    · rw [if_neg h] at hut
      rw [← hut] at htid
      exact absurd htid h
  · intro err retryable
    simp only [failTask]
    cases hf : s.tasks.find? (fun t => t.id = tid) with
    | none => exact hfilter
    | some row => exact hfilter
  · intro err retryable row hf t ht htid
    simp only [failTask] at ht
    rw [hf] at ht
    cases retryable with
    | false =>
      simp only [Bool.not_false, Bool.true_or, if_true] at ht
      rw [if_neg (show ¬(TaskState.failedFinal = TaskState.failedRetryable)
        from by decide)] at ht
      rw [List.mem_map] at ht
      obtain ⟨v, hv, hvt⟩ := ht
      by_cases h : v.id = tid
      · simp only [if_pos h] at hvt
        rw [← hvt]
        simp
      · simp only [if_neg h] at hvt
        rw [← hvt] at htid
        exact absurd htid h
    | true =>
      by_cases hge : row.maxAttempts ≤ row.attempts
      · simp only [hge, Bool.not_true, Bool.false_or, decide_eq_true_eq,
          if_true, if_false] at ht
        rw [if_neg (show ¬(TaskState.failedFinal = TaskState.failedRetryable)
          from by decide)] at ht
        rw [List.mem_map] at ht
        obtain ⟨v, hv, hvt⟩ := ht
        by_cases h : v.id = tid
        · simp only [if_pos h] at hvt
          rw [← hvt]
          simp [hge]
        · simp only [if_neg h] at hvt
          rw [← hvt] at htid
          exact absurd htid h
      · simp only [hge, Bool.not_true, Bool.false_or, decide_eq_true_eq,
          if_true, if_false] at ht
        simp only [List.map_map] at ht
        rw [List.mem_map] at ht
        obtain ⟨v, hv, hvt⟩ := ht
        by_cases h : v.id = tid
        · simp only [Function.comp, if_pos h] at hvt
          rw [← hvt]
          simp [hge]
        · simp only [Function.comp, if_neg h] at hvt
          rw [← hvt] at htid
          exact absurd htid h

/-- C4 witness: in the concrete stale-worker scenario the new holder's
lease survives the prior worker's complete call. -/
theorem C4_stale_worker_witness :
    (⟨"t1", "B", 1000⟩ : TaskLock) ∈
      (completeTask "t1" "A" 500
        ⟨[⟨"t1", "NOOP", "null", TaskState.running, 0, 1, 5, 0, 0, 0, none,
          none⟩], [⟨"t1", "B", 1000⟩]⟩).locks :=
  (C4_stale_worker
    ⟨[⟨"t1", "NOOP", "null", TaskState.running, 0, 1, 5, 0, 0, 0, none,
      none⟩], [⟨"t1", "B", 1000⟩]⟩ "t1" "A" "B" 500 ⟨"t1", "B", 1000⟩
    (by decide) rfl rfl (by decide)).1

/-! ## C6: retry/backoff and terminal convergence -/

theorem claim_singleton_nolock (t : TaskRecord) (w : String) (ttl now : Nat)
    (hq : t.state = TaskState.queued) (hr : t.runAfterMs ≤ now) :
    claimNextTask w ttl now ⟨[t], []⟩ =
      (some ⟨markClaimed now t, now + ttl⟩,
        ⟨[markClaimed now t], [⟨t.id, w, now + ttl⟩]⟩) := by
  have hr1 : runnable ([] : List TaskLock) now t = true := by
    simp [runnable, hq, hr]
  have hp : pickBest (([t] : List TaskRecord).filter
      (runnable (([] : List TaskLock).filter
        (fun l => !(l.lockUntilMs ≤ now))) now)) = some t := by
    simp [List.filter_singleton, hr1, pickBest]
  rw [claimNextTask_some_eq ⟨[t], []⟩ w ttl now t hp]
  simp

theorem fail_singleton_retry (t : TaskRecord) (tid : String)
    (locks : List TaskLock) (w err : String) (now : Nat) (hid : t.id = tid)
    (hlt : t.attempts < t.maxAttempts) :
    failTask tid w err true now ⟨[t], locks⟩ =
      (⟨some (now + computeBackoffMs t.attempts), false⟩,
        ⟨[{ t with
            state := TaskState.queued
            runAfterMs := now + computeBackoffMs t.attempts
            updatedAtMs := now
            lastError := some err }],
          locks.filter (fun l => !(l.taskId = tid && l.lockedBy = w))⟩) := by
  have hf : ([t] : List TaskRecord).find? (fun x => x.id = tid) = some t := by
    simp [hid]
  have hnl : ¬(t.maxAttempts ≤ t.attempts) := Nat.not_le.mpr hlt
  simp only [failTask]
  rw [hf]
  simp [hid, hnl]

theorem fail_singleton_final (t : TaskRecord) (tid : String)
    (locks : List TaskLock) (w err : String) (retryable : Bool) (now : Nat)
    (hid : t.id = tid)
    (hfin : retryable = false ∨ t.maxAttempts ≤ t.attempts) :
    failTask tid w err retryable now ⟨[t], locks⟩ =
      (⟨none, true⟩,
        ⟨[{ t with
            state := TaskState.failedFinal
            updatedAtMs := now
            lastError := some err }],
          locks.filter (fun l => !(l.taskId = tid && l.lockedBy = w))⟩) := by
  have hf : ([t] : List TaskRecord).find? (fun x => x.id = tid) = some t := by
    simp [hid]
  simp only [failTask]
  rw [hf]
  rcases hfin with hfin | hfin
  · subst hfin
    simp [hid]
  · simp [hid, hfin]

theorem claim_none_of_no_queued (s : QueueState) (w : String) (ttl now : Nat)
    (h : ∀ t ∈ s.tasks, ¬ t.state = TaskState.queued) :
    (claimNextTask w ttl now s).1 = none := by
  cases hp : pickBest (s.tasks.filter
      (runnable (s.locks.filter (fun l => !(l.lockUntilMs ≤ now))) now)) with
  | none => rw [claimNextTask_none_eq s w ttl now hp]
  | some picked =>
    exfalso
    have hmem := pickBest_mem _ _ hp
    obtain ⟨hm, hr⟩ := List.mem_filter.mp hmem
    have : picked.state = TaskState.queued := by
      simp only [runnable, Bool.and_eq_true, decide_eq_true_eq] at hr
      exact hr.1.1
    exact h picked hm this

theorem claim_fail_retry_step (t : TaskRecord) (tid : String)
    (w err : String) (ttl nClaim nFail : Nat) (hid : t.id = tid)
    (hq : t.state = TaskState.queued) (hr : t.runAfterMs ≤ nClaim)
    (hlt : t.attempts + 1 < t.maxAttempts) :
    failTask tid w err true nFail (claimNextTask w ttl nClaim ⟨[t], []⟩).2 =
      (⟨some (nFail + computeBackoffMs (t.attempts + 1)), false⟩,
        ⟨[{ t with
            state := TaskState.queued
            attempts := t.attempts + 1
            runAfterMs := nFail + computeBackoffMs (t.attempts + 1)
            updatedAtMs := nFail
            lastError := some err }], []⟩) := by
  rw [claim_singleton_nolock t w ttl nClaim hq hr]
  rw [fail_singleton_retry (markClaimed nClaim t) tid
    [⟨t.id, w, nClaim + ttl⟩] w err nFail (by simpa [markClaimed] using hid)
    (by simpa [markClaimed] using hlt)]
  simp [markClaimed, hid]

theorem claim_fail_final_step (t : TaskRecord) (tid : String)
    (w err : String) (ttl nClaim nFail : Nat) (hid : t.id = tid)
    (hq : t.state = TaskState.queued) (hr : t.runAfterMs ≤ nClaim)
    (hge : t.maxAttempts ≤ t.attempts + 1) :
    failTask tid w err true nFail (claimNextTask w ttl nClaim ⟨[t], []⟩).2 =
      (⟨none, true⟩,
        ⟨[{ t with
            state := TaskState.failedFinal
            attempts := t.attempts + 1
            updatedAtMs := nFail
            lastError := some err }], []⟩) := by
  rw [claim_singleton_nolock t w ttl nClaim hq hr]
  rw [fail_singleton_final (markClaimed nClaim t) tid
    [⟨t.id, w, nClaim + ttl⟩] w err true nFail
    (by simpa [markClaimed] using hid)
    (Or.inr (by simpa [markClaimed] using hge))]
  simp [markClaimed, hid]

/-- C6: the backoff schedule is 5000, 15000, 45000, 135000 ms for
attempts 1..4 and 300000 ms from the cap onward; `failTask` reports
final exactly when `retryable` is false or `attempts >= max_attempts`
(attempts were incremented at claim time), otherwise it re-queues the
job with `run_after = now + backoff(attempts)`; and a job with
`max_attempts = 3` that always fails retryably is FAILED_FINAL at the
third failure and is never claimed a fourth time. -/
theorem C6_fail_backoff :
    (computeBackoffMs 1 = 5000 ∧ computeBackoffMs 2 = 15000 ∧
      computeBackoffMs 3 = 45000 ∧ computeBackoffMs 4 = 135000) ∧
    (∀ n, 5 ≤ n → computeBackoffMs n = 300000) ∧
    (∀ (s : QueueState) (tid w err : String) (retryable : Bool) (now : Nat)
      (row : TaskRecord), s.tasks.find? (fun t => t.id = tid) = some row →
      ((failTask tid w err retryable now s).1.final = true ↔
        (retryable = false ∨ row.maxAttempts ≤ row.attempts)) ∧
      (retryable = true → row.attempts < row.maxAttempts →
        (failTask tid w err retryable now s).1 =
          ⟨some (now + computeBackoffMs row.attempts), false⟩ ∧
        ∀ t ∈ (failTask tid w err retryable now s).2.tasks, t.id = tid →
          t.state = TaskState.queued ∧
          t.runAfterMs = now + computeBackoffMs row.attempts)) ∧
    (∀ (j : TaskRecord) (w err : String) (ttl n1 n2 n3 n4 n5 n6 : Nat),
      j.state = TaskState.queued → j.attempts = 0 → j.maxAttempts = 3 →
      j.runAfterMs ≤ n1 → n2 + 5000 ≤ n3 → n4 + 15000 ≤ n5 →
      (failTask j.id w err true n6 (claimNextTask w ttl n5
        (failTask j.id w err true n4 (claimNextTask w ttl n3
          (failTask j.id w err true n2 (claimNextTask w ttl n1
            ⟨[j], []⟩).2).2).2).2).2).1 = ⟨none, true⟩ ∧
      (∀ t ∈ (failTask j.id w err true n6 (claimNextTask w ttl n5
        (failTask j.id w err true n4 (claimNextTask w ttl n3
          (failTask j.id w err true n2 (claimNextTask w ttl n1
            ⟨[j], []⟩).2).2).2).2).2).2.tasks,
        t.state = TaskState.failedFinal ∧ t.attempts = 3) ∧
      (∀ (w4 : String) (ttl4 n7 : Nat),
        (claimNextTask w4 ttl4 n7 (failTask j.id w err true n6
          (claimNextTask w ttl n5 (failTask j.id w err true n4
            (claimNextTask w ttl n3 (failTask j.id w err true n2
              (claimNextTask w ttl n1 ⟨[j], []⟩).2).2).2).2).2).2).1 =
          none)) := by
  refine ⟨⟨by decide, by decide, by decide, by decide⟩, ?_, ?_, ?_⟩
  · intro n hn
    unfold computeBackoffMs
    have h81 : 81 ≤ 3 ^ (n - 1) := by
      calc (81 : Nat) = 3 ^ 4 := by norm_num
      _ ≤ 3 ^ (n - 1) := Nat.pow_le_pow_right (by norm_num) (by omega)
    have hbig : 300000 ≤ 5000 * 3 ^ (n - 1) := by
      calc (300000 : Nat) ≤ 5000 * 81 := by norm_num
      _ ≤ 5000 * 3 ^ (n - 1) := Nat.mul_le_mul_left 5000 h81
    omega
  · intro s tid w err retryable now row hf
    constructor
    · simp only [failTask]
      rw [hf]
      cases retryable <;> simp
    · intro hretr hlt
      subst hretr
      have hnl : ¬(row.maxAttempts ≤ row.attempts) := Nat.not_le.mpr hlt
      constructor
      · simp only [failTask]
        rw [hf]
        simp [hnl]
      · intro t ht htid
        simp only [failTask] at ht
        rw [hf] at ht
        simp only [hnl, Bool.not_true, Bool.false_or, decide_eq_true_eq,
          if_false, if_true, List.map_map] at ht
        rw [List.mem_map] at ht
        obtain ⟨v, hv, hvt⟩ := ht
        by_cases h : v.id = tid
        · simp only [Function.comp, if_pos h] at hvt
          rw [← hvt]
          simp
        · simp only [Function.comp, if_neg h] at hvt
          rw [← hvt] at htid
          exact absurd htid h
  · intro j w err ttl n1 n2 n3 n4 n5 n6 hq hA hM hr1 h23 h45
    have hb1 : computeBackoffMs 1 = 5000 := by decide
    have hb2 : computeBackoffMs 2 = 15000 := by decide
    have h1s : (failTask j.id w err true n2 (claimNextTask w ttl n1
        ⟨[j], []⟩).2).2 =
        (⟨[⟨j.id, j.taskType, j.payloadJson, TaskState.queued, j.priority,
          j.attempts + 1, j.maxAttempts, n2 + computeBackoffMs (j.attempts + 1),
          j.createdAtMs, n2, some err, j.taskKey⟩], []⟩ : QueueState) := by
      rw [claim_fail_retry_step j j.id w err ttl n1 n2 rfl hq hr1 (by omega)]
    have h2s : (failTask j.id w err true n4 (claimNextTask w ttl n3
        (⟨[⟨j.id, j.taskType, j.payloadJson, TaskState.queued, j.priority,
          j.attempts + 1, j.maxAttempts, n2 + computeBackoffMs (j.attempts + 1),
          j.createdAtMs, n2, some err, j.taskKey⟩], []⟩ : QueueState)).2).2 =
        (⟨[⟨j.id, j.taskType, j.payloadJson, TaskState.queued, j.priority,
          j.attempts + 1 + 1, j.maxAttempts,
          n4 + computeBackoffMs (j.attempts + 1 + 1),
          j.createdAtMs, n4, some err, j.taskKey⟩], []⟩ : QueueState) := by
      rw [claim_fail_retry_step
        ⟨j.id, j.taskType, j.payloadJson, TaskState.queued, j.priority,
          j.attempts + 1, j.maxAttempts, n2 + computeBackoffMs (j.attempts + 1),
          j.createdAtMs, n2, some err, j.taskKey⟩ j.id w err ttl n3 n4
        rfl rfl
        (by show n2 + computeBackoffMs (j.attempts + 1) ≤ n3
            rw [hA]
            simpa [hb1] using h23)
        (by show j.attempts + 1 + 1 < j.maxAttempts
            omega)]
    have h3s : failTask j.id w err true n6 (claimNextTask w ttl n5
        (⟨[⟨j.id, j.taskType, j.payloadJson, TaskState.queued, j.priority,
          j.attempts + 1 + 1, j.maxAttempts,
          n4 + computeBackoffMs (j.attempts + 1 + 1),
          j.createdAtMs, n4, some err, j.taskKey⟩], []⟩ : QueueState)).2 =
        (⟨none, true⟩,
          (⟨[⟨j.id, j.taskType, j.payloadJson, TaskState.failedFinal,
            j.priority, j.attempts + 1 + 1 + 1, j.maxAttempts,
            n4 + computeBackoffMs (j.attempts + 1 + 1),
            j.createdAtMs, n6, some err, j.taskKey⟩], []⟩ : QueueState)) := by
      rw [claim_fail_final_step
        ⟨j.id, j.taskType, j.payloadJson, TaskState.queued, j.priority,
          j.attempts + 1 + 1, j.maxAttempts,
          n4 + computeBackoffMs (j.attempts + 1 + 1),
          j.createdAtMs, n4, some err, j.taskKey⟩ j.id w err ttl n5 n6
        rfl rfl
        (by show n4 + computeBackoffMs (j.attempts + 1 + 1) ≤ n5
            rw [hA]
            simpa [hb2] using h45)
        (by show j.maxAttempts ≤ j.attempts + 1 + 1 + 1
            omega)]
    rw [h1s, h2s, h3s]
    refine ⟨rfl, ?_, ?_⟩
    · intro t ht
      simp only [List.mem_singleton] at ht
      subst ht
      exact ⟨rfl, by simp [hA]⟩
    · intro w4 ttl4 n7
      apply claim_none_of_no_queued
      intro t ht
      simp only [List.mem_singleton] at ht
      subst ht
      simp

/-- C6 witness: a concrete job with `max_attempts = 3` that always
fails retryably is FAILED_FINAL after the third failure. -/
theorem C6_fail_backoff_witness :
    (failTask "t1" "w" "boom" true 20000 (claimNextTask "w" 10 20000
      (failTask "t1" "w" "boom" true 5000 (claimNextTask "w" 10 5000
        (failTask "t1" "w" "boom" true 0 (claimNextTask "w" 10 0
          ⟨[⟨"t1", "NOOP", "null", TaskState.queued, 0, 0, 3, 0, 0, 0, none,
            none⟩], []⟩).2).2).2).2).2).1 = ⟨none, true⟩ :=
  (C6_fail_backoff.2.2.2
    ⟨"t1", "NOOP", "null", TaskState.queued, 0, 0, 3, 0, 0, 0, none, none⟩
    "w" "boom" 10 0 0 5000 5000 20000 20000 rfl rfl rfl (by decide)
    (by decide) (by decide)).1

/-! ## C1: the ledger write is the only durable effect of preflight -/

theorem dailyCapAndCommit_shape (cfg : WalletGuardConfig) (valueWei : Int)
    (decoded : Option DecodedErc20) (ledgerFile : Option Ledger)
    (today : String) :
    ((dailyCapAndCommit cfg valueWei decoded ledgerFile today).1.isOk = true ∧
      (dailyCapAndCommit cfg valueWei decoded ledgerFile today).2.length = 1) ∨
    ((dailyCapAndCommit cfg valueWei decoded ledgerFile today).1.isOk = false ∧
      (dailyCapAndCommit cfg valueWei decoded ledgerFile today).2 = []) := by
  simp only [dailyCapAndCommit]
  cases hu : cfg.usdc
  all_goals dsimp only
  all_goals repeat' split
  all_goals first
    | exact Or.inl ⟨rfl, rfl⟩
    | exact Or.inr ⟨rfl, rfl⟩

theorem erc20PolicyAndTail_shape (cfg : WalletGuardConfig)
    (toLower : Option String) (valueWei : Int)
    (decoded : Option DecodedErc20) (simulate : Option SimulationResult)
    (ledgerFile : Option Ledger) (today : String) :
    ((erc20PolicyAndTail cfg toLower valueWei decoded simulate ledgerFile
      today).1.isOk = true ∧
      (erc20PolicyAndTail cfg toLower valueWei decoded simulate ledgerFile
        today).2.length = 1) ∨
    ((erc20PolicyAndTail cfg toLower valueWei decoded simulate ledgerFile
      today).1.isOk = false ∧
      (erc20PolicyAndTail cfg toLower valueWei decoded simulate ledgerFile
        today).2 = []) := by
  simp only [erc20PolicyAndTail]
  repeat' split
  all_goals first
    | exact Or.inl ⟨rfl, rfl⟩
    | exact Or.inr ⟨rfl, rfl⟩
    | exact dailyCapAndCommit_shape cfg valueWei decoded ledgerFile today

theorem walletPreflightAfterAddr_shape (cfg : WalletGuardConfig)
    (tx : TxIntent) (simulate : Option SimulationResult)
    (ledgerFile : Option Ledger) (today : String) :
    ((walletPreflightAfterAddr cfg tx simulate ledgerFile today).1.isOk =
      true ∧
      (walletPreflightAfterAddr cfg tx simulate ledgerFile
        today).2.length = 1) ∨
    ((walletPreflightAfterAddr cfg tx simulate ledgerFile today).1.isOk =
      false ∧
      (walletPreflightAfterAddr cfg tx simulate ledgerFile today).2 = []) := by
  simp only [walletPreflightAfterAddr]
  repeat' split
  all_goals first
    | exact Or.inl ⟨rfl, rfl⟩
    | exact Or.inr ⟨rfl, rfl⟩
    | exact erc20PolicyAndTail_shape _ _ _ _ _ _ _

theorem walletPreflightAfterFrom_shape (cfg : WalletGuardConfig)
    (tx : TxIntent) (simulate : Option SimulationResult)
    (ledgerFile : Option Ledger) (today : String) :
    ((walletPreflightAfterFrom cfg tx simulate ledgerFile today).1.isOk =
      true ∧
      (walletPreflightAfterFrom cfg tx simulate ledgerFile
        today).2.length = 1) ∨
    ((walletPreflightAfterFrom cfg tx simulate ledgerFile today).1.isOk =
      false ∧
      (walletPreflightAfterFrom cfg tx simulate ledgerFile today).2 = []) := by
  simp only [walletPreflightAfterFrom]
  repeat' split
  all_goals first
    | exact Or.inl ⟨rfl, rfl⟩
    | exact Or.inr ⟨rfl, rfl⟩
    | exact walletPreflightAfterAddr_shape cfg tx simulate ledgerFile today

theorem walletPreflightCheck_shape (cfg : WalletGuardConfig) (tx : TxIntent)
    (simulate : Option SimulationResult) (ledgerFile : Option Ledger)
    (today : String) :
    ((walletPreflightCheck cfg tx simulate ledgerFile today).1.isOk = true ∧
      (walletPreflightCheck cfg tx simulate ledgerFile today).2.length = 1) ∨
    ((walletPreflightCheck cfg tx simulate ledgerFile today).1.isOk = false ∧
      (walletPreflightCheck cfg tx simulate ledgerFile today).2 = []) := by
  simp only [walletPreflightCheck]
  repeat' split
  all_goals first
    | exact Or.inl ⟨rfl, rfl⟩
    | exact Or.inr ⟨rfl, rfl⟩
    | exact walletPreflightAfterFrom_shape cfg tx simulate ledgerFile today

/-- C1: the ledger write is the only durable side effect of
`walletPreflightCheck`: every rejection (kill switch, chain allowlist,
address and destination policy, per-transaction cap, approval/transfer
policy, simulation, daily cap) raises an error with no ledger write,
and a pass performs exactly one write; in particular with
`max_tx_value = 100` a transaction of value 101 is rejected before any
ledger mutation, whatever the ledger file holds. -/
theorem C1_preflight_ledger (cfg : WalletGuardConfig) (tx : TxIntent)
    (simulate : Option SimulationResult) (ledgerFile : Option Ledger)
    (today : String) :
    (∀ e, (walletPreflightCheck cfg tx simulate ledgerFile today).1 =
      Except.error e →
      (walletPreflightCheck cfg tx simulate ledgerFile today).2 = []) ∧
    ((walletPreflightCheck cfg tx simulate ledgerFile today).1 =
      Except.ok () →
      (walletPreflightCheck cfg tx simulate ledgerFile today).2.length = 1) ∧
    walletPreflightCheck
      ⟨true, [8453], 100, 1000000, none, none, true, none, false,
        "ledger.json"⟩
      ⟨8453, none, none, some 101, none⟩ none ledgerFile today =
      (Except.error "Tx value exceeds maxTxValueWei: 101 > 100", []) := by
  refine ⟨?_, ?_, ?_⟩
  · intro e he
    rcases walletPreflightCheck_shape cfg tx simulate ledgerFile today with
      ⟨h1, h2⟩ | ⟨h1, h2⟩
    · rw [he] at h1
      exact absurd h1 (by simp [Except.isOk, Except.toBool])
    · exact h2
  · intro hok
    rcases walletPreflightCheck_shape cfg tx simulate ledgerFile today with
      ⟨h1, h2⟩ | ⟨h1, h2⟩
    · exact h2
    · rw [hok] at h1
      exact absurd h1 (by simp [Except.isOk, Except.toBool])
  · rfl

/-- C1 witness: the over-cap transaction from the claim is rejected and
the ledger write list is empty. -/
theorem C1_preflight_ledger_witness :
    (walletPreflightCheck
      ⟨true, [8453], 100, 1000000, none, none, true, none, false,
        "ledger.json"⟩
      ⟨8453, none, none, some 101, none⟩ none
      (some ⟨"2024-01-01", 7, []⟩) "2024-01-01").2 = [] :=
  (C1_preflight_ledger
    ⟨true, [8453], 100, 1000000, none, none, true, none, false,
      "ledger.json"⟩
    ⟨8453, none, none, some 101, none⟩ none
    (some ⟨"2024-01-01", 7, []⟩) "2024-01-01").1
    "Tx value exceeds maxTxValueWei: 101 > 100" rfl

/-! ## C7: daily rollover and the daily-cap condition -/

theorem dailyCapAndCommit_rollover (cfg : WalletGuardConfig) (valueWei : Int)
    (decoded : Option DecodedErc20) (L : Ledger) (today : String)
    (h : L.dayKey ≠ today) :
    dailyCapAndCommit cfg valueWei decoded (some L) today =
      dailyCapAndCommit cfg valueWei decoded (some ⟨today, 0, []⟩) today := by
  simp only [dailyCapAndCommit, readLedger, Option.getD_some]
  simp [h]

theorem erc20PolicyAndTail_rollover (cfg : WalletGuardConfig)
    (toLower : Option String) (valueWei : Int)
    (decoded : Option DecodedErc20) (simulate : Option SimulationResult)
    (L : Ledger) (today : String) (h : L.dayKey ≠ today) :
    erc20PolicyAndTail cfg toLower valueWei decoded simulate (some L)
      today =
      erc20PolicyAndTail cfg toLower valueWei decoded simulate
        (some ⟨today, 0, []⟩) today := by
  simp only [erc20PolicyAndTail]
  split
  · rfl
  · split
    · rfl
    · split
      · split
        · rfl
        · split
          · rfl
          · exact dailyCapAndCommit_rollover cfg valueWei decoded L today h
      · exact dailyCapAndCommit_rollover cfg valueWei decoded L today h

theorem walletPreflightAfterAddr_rollover (cfg : WalletGuardConfig)
    (tx : TxIntent) (simulate : Option SimulationResult) (L : Ledger)
    (today : String) (h : L.dayKey ≠ today) :
    walletPreflightAfterAddr cfg tx simulate (some L) today =
      walletPreflightAfterAddr cfg tx simulate (some ⟨today, 0, []⟩)
        today := by
  simp only [walletPreflightAfterAddr]
  repeat' split
  all_goals first
    | rfl
    | exact erc20PolicyAndTail_rollover _ _ _ _ _ L today h

theorem walletPreflightAfterFrom_rollover (cfg : WalletGuardConfig)
    (tx : TxIntent) (simulate : Option SimulationResult) (L : Ledger)
    (today : String) (h : L.dayKey ≠ today) :
    walletPreflightAfterFrom cfg tx simulate (some L) today =
      walletPreflightAfterFrom cfg tx simulate (some ⟨today, 0, []⟩)
        today := by
  simp only [walletPreflightAfterFrom]
  repeat' split
  all_goals first
    | rfl
    | exact walletPreflightAfterAddr_rollover cfg tx simulate L today h

theorem walletPreflightCheck_rollover (cfg : WalletGuardConfig)
    (tx : TxIntent) (simulate : Option SimulationResult) (L : Ledger)
    (today : String) (h : L.dayKey ≠ today) :
    walletPreflightCheck cfg tx simulate (some L) today =
      walletPreflightCheck cfg tx simulate (some ⟨today, 0, []⟩) today := by
  simp only [walletPreflightCheck]
  repeat' split
  all_goals first
    | rfl
    | exact walletPreflightAfterFrom_rollover cfg tx simulate L today h

/-- C7: when the stored `dayKey` differs from the current day, every
counter (native and per-asset) is treated as zero: the whole preflight
behaves exactly as with a zeroed ledger for today.  At the daily-cap
step the guard rejects a native transaction iff
`today_spent + value > max_daily_value`, and a decoded token transfer
additionally iff the per-asset counter plus the transfer amount exceeds
the USDC daily cap; in particular a ledger with yesterday's day key and
`native_spent = 1000` counts as zero today. -/
theorem C7_daily_rollover :
    (∀ (cfg : WalletGuardConfig) (tx : TxIntent)
      (simulate : Option SimulationResult) (L : Ledger) (today : String),
      L.dayKey ≠ today →
      walletPreflightCheck cfg tx simulate (some L) today =
        walletPreflightCheck cfg tx simulate (some ⟨today, 0, []⟩) today) ∧
    (∀ (cfg : WalletGuardConfig) (valueWei : Int) (L : Ledger)
      (today : String),
      ((dailyCapAndCommit cfg valueWei none (some L) today).1.isOk = true ↔
        (if L.dayKey = today then L.spentWei else 0) + valueWei ≤
          cfg.maxDailyValueWei)) ∧
    (∀ (cfg : WalletGuardConfig) (u : UsdcPolicy) (valueWei amt : Int)
      (toAddr : String) (L : Ledger) (today : String), cfg.usdc = some u →
      ((dailyCapAndCommit cfg valueWei
        (some (DecodedErc20.transfer toAddr amt)) (some L) today).1.isOk =
          true ↔
        ((if L.dayKey = today then L.spentWei else 0) + valueWei ≤
          cfg.maxDailyValueWei ∧
          tokenSpentGet (if L.dayKey = today then L.tokenSpent else [])
            u.tokenAddress + amt ≤ u.maxDailyUnits))) ∧
    walletPreflightCheck
      ⟨true, [8453], 1000, 500, none, none, true, none, false, "p"⟩
      ⟨8453, none, none, some 400, none⟩ none
      (some ⟨"2024-01-01", 1000, []⟩) "2024-01-02" =
      (Except.ok (), [⟨"2024-01-02", 400, []⟩]) := by
  refine ⟨walletPreflightCheck_rollover, ?_, ?_, ?_⟩
  · intro cfg valueWei L today
    by_cases hday : L.dayKey = today
    · simp only [dailyCapAndCommit, readLedger, Option.getD_some, hday,
        if_true]
      by_cases hcap : cfg.maxDailyValueWei < L.spentWei + valueWei
      · simp [hcap, Except.isOk, Except.toBool]
        try omega
      · cases hcu : cfg.usdc <;>
          simp [hcap, isErc20Transferish, Except.isOk, Except.toBool] <;>
          try omega
    · simp only [dailyCapAndCommit, readLedger, Option.getD_some]
      simp only [hday, if_false, zero_add]
      by_cases hcap : cfg.maxDailyValueWei < valueWei
      · simp [hcap, Except.isOk, Except.toBool]
        try omega
      · cases hcu : cfg.usdc <;>
          simp [hcap, isErc20Transferish, Except.isOk, Except.toBool] <;>
          try omega
  · intro cfg u valueWei amt toAddr L today hu
    by_cases hday : L.dayKey = today
    · simp only [dailyCapAndCommit, readLedger, Option.getD_some, hday,
        if_true, hu, isErc20Transferish]
      by_cases hcap : cfg.maxDailyValueWei < L.spentWei + valueWei
      · simp [hcap, Except.isOk, Except.toBool]
        try omega
      · by_cases htok : u.maxDailyUnits <
            tokenSpentGet L.tokenSpent u.tokenAddress + amt
        · simp [hcap, htok, Except.isOk, Except.toBool]
          try omega
        · simp [hcap, htok, Except.isOk, Except.toBool]
          try omega
    · simp only [dailyCapAndCommit, readLedger, Option.getD_some, hu,
        isErc20Transferish]
      simp only [hday, if_false, zero_add]
      by_cases hcap : cfg.maxDailyValueWei < valueWei
      · simp [hcap, Except.isOk, Except.toBool]
        try omega
      · by_cases htok : u.maxDailyUnits < tokenSpentGet [] u.tokenAddress + amt
        · simp [hcap, htok, Except.isOk, Except.toBool]
          try omega
        · simp [hcap, htok, Except.isOk, Except.toBool]
          try omega
  · rfl

/-- C7 witness: a ledger carrying yesterday's day key is interchangeable
with a zeroed ledger for today. -/
theorem C7_daily_rollover_witness :
    walletPreflightCheck
      ⟨true, [8453], 1000, 500, none, none, true, none, false, "p"⟩
      ⟨8453, none, none, some 400, none⟩ none
      (some ⟨"2024-01-01", 1000, []⟩) "2024-01-02" =
      walletPreflightCheck
        ⟨true, [8453], 1000, 500, none, none, true, none, false, "p"⟩
        ⟨8453, none, none, some 400, none⟩ none
        (some ⟨"2024-01-02", 0, []⟩) "2024-01-02" :=
  C7_daily_rollover.1
    ⟨true, [8453], 1000, 500, none, none, true, none, false, "p"⟩
    ⟨8453, none, none, some 400, none⟩ none
    ⟨"2024-01-01", 1000, []⟩ "2024-01-02" (by decide)
